import Mathlib

/-!
Verification of the doods detector core against its specification.

The development shallowly embeds the two detector backends of the
repository (`detector/tflite/detector.go` and the tensorflow backend):
the label-file loader of `New`, the pool construction of `New`, and the
per-request pipeline of `Detect` (decode, pool acquire/release, the
invoke/timeout race, and the filter-and-map loop over raw candidates).
Raw `float32` scores and box coordinates are modelled as rationals,
class indices and pixel coordinates as integers.
-/

namespace Doods

/-- One raw candidate of a detection batch: the four box coordinates
`locations[i*4 .. i*4+3]` (top, left, bottom, right on the tflite
backend; `locations[i][0..3]` on the tensorflow backend), the class
index `int(classes[i])` and the raw fractional score `scores[i]`. -/
structure Candidate where
  top : ℚ
  left : ℚ
  bottom : ℚ
  right : ℚ
  classIdx : Int
  score : ℚ
deriving DecidableEq

/-- Output detection of the tflite backend (`odrpc.Detection` with the
normalized-coordinate fields `Top`, `Left`, `Bottom`, `Right`). -/
structure Detection where
  top : ℚ
  left : ℚ
  bottom : ℚ
  right : ℚ
  label : String
  confidence : ℚ
deriving DecidableEq

/-- Output detection of the tensorflow backend (`odrpc.Detection` with
the pixel-coordinate fields `Y1`, `X1`, `Y2`, `X2` of type `int32`). -/
structure DetectionTF where
  y1 : Int
  x1 : Int
  y2 : Int
  x2 : Int
  label : String
  confidence : ℚ
deriving DecidableEq

/-- `label, ok := d.labels[int(classes[i])]`: a Go map read; a missing
key yields the zero value `""` (the code only logs a warning). -/
def lookupLabel (labels : List (Int × String)) (k : Int) : String :=
  (labels.lookup k).getD ""

/-- The threshold decision of the `Detect` loop (identical in both
backends): an exact-label entry of `request.Detect` is consulted first,
then the wildcard `"*"` entry, then if the spec is non-empty the
candidate is rejected, and an empty spec accepts everything.  Each
branch `continue`s (rejects) exactly when `scores[i]*100.0 < score`. -/
def accepted (filterSpec : List (String × ℚ)) (label : String) (score : ℚ) : Bool :=
  match filterSpec.lookup label with
  | some threshold => !decide (score * 100 < threshold)
  | none =>
    match filterSpec.lookup "*" with
    | some threshold => !decide (score * 100 < threshold)
    | none => filterSpec.isEmpty

/-- Box cleanup plus confidence of the tflite backend: `Top` and `Left`
are raised to `0` when negative, `Bottom` and `Right` are lowered to `1`
when above `1`; `Confidence = scores[i] * 100.0`. -/
def mkDetection (label : String) (c : Candidate) : Detection :=
  { top := if c.top < 0 then 0 else c.top
    left := if c.left < 0 then 0 else c.left
    bottom := if 1 < c.bottom then 1 else c.bottom
    right := if 1 < c.right then 1 else c.right
    label := label
    confidence := c.score * 100 }

/-- Go's `int32(f)` conversion of a float truncates toward zero. -/
def truncQ (q : ℚ) : Int := if 0 ≤ q then ⌊q⌋ else ⌈q⌉

/-- Box computation of the tensorflow backend: each coordinate is the
raw value scaled by the image dimension and truncated to `int32`; then
`Y1`/`X1` are raised to `0` when negative and `Y2`/`X2` lowered to the
image dimension when above it; `Confidence = scores[i] * 100.0`. -/
def mkDetectionTF (label : String) (c : Candidate) (hh ww : Int) : DetectionTF :=
  let ry1 := truncQ (c.top * (hh : ℚ))
  let rx1 := truncQ (c.left * (ww : ℚ))
  let ry2 := truncQ (c.bottom * (hh : ℚ))
  let rx2 := truncQ (c.right * (ww : ℚ))
  { y1 := if ry1 < 0 then 0 else ry1
    x1 := if rx1 < 0 then 0 else rx1
    y2 := if hh < ry2 then hh else ry2
    x2 := if ww < rx2 then ww else rx2
    label := label
    confidence := c.score * 100 }

/-- The result-mapping loop of the tflite `Detect`: each candidate is
labelled, filtered by `accepted`, and (when kept) clipped and appended
in batch order. -/
def mapDetections (labels : List (Int × String)) (filterSpec : List (String × ℚ))
    (batch : List Candidate) : List Detection :=
  batch.filterMap fun c =>
    if accepted filterSpec (lookupLabel labels c.classIdx) c.score then
      some (mkDetection (lookupLabel labels c.classIdx) c)
    else none

/-- The result-mapping loop of the tensorflow `Detect` (same filter,
pixel-coordinate boxes). -/
def mapDetectionsTF (labels : List (Int × String)) (filterSpec : List (String × ℚ))
    (batch : List Candidate) (hh ww : Int) : List DetectionTF :=
  batch.filterMap fun c =>
    if accepted filterSpec (lookupLabel labels c.classIdx) c.score then
      some (mkDetectionTF (lookupLabel labels c.classIdx) c hh ww)
    else none

/-- ASCII white space as trimmed by Go's `strings.TrimSpace`
(space, tab, newline, vertical tab, form feed, carriage return). -/
def isSpaceChar (c : Char) : Bool :=
  c == ' ' || c == '\t' || c == '\n' || c == '\r' || c.toNat == 11 || c.toNat == 12

/-- Drop leading white space of a character list. -/
def trimLeading : List Char → List Char
  | [] => []
  | c :: cs => if isSpaceChar c then trimLeading cs else c :: cs

/-- `strings.TrimSpace`: drop leading and trailing white space. -/
def trimStr (s : String) : String :=
  ⟨(trimLeading ((trimLeading s.data).reverse)).reverse⟩

/-- Value of a non-empty all-digit run, as read by `strconv.Atoi`. -/
def digitsVal (cs : List Char) : Option Nat :=
  if cs = [] then none
  else if cs.all (fun c => c.isDigit) then
    some (cs.foldl (fun a c => a * 10 + (c.toNat - 48)) 0)
  else none

/-- `strconv.Atoi`: an optional sign followed by at least one digit. -/
def atoiQ (s : String) : Option Int :=
  match s.data with
  | '-' :: rest => (digitsVal rest).map fun n => -(n : Int)
  | '+' :: rest => (digitsVal rest).map fun n => (n : Int)
  | cs => (digitsVal cs).map fun n => (n : Int)

/-- `strings.SplitAfterN(s, " ", 2)` on the character list: split after
the first space, the separator kept with the first part. -/
def splitAfter : List Char → Option (List Char × List Char)
  | [] => none
  | c :: cs =>
    if c = ' ' then some ([c], cs)
    else
      match splitAfter cs with
      | none => none
      | some (pre, post) => some (c :: pre, post)

/-- `strings.SplitAfterN(line, " ", 2)`: one field when the line has no
space, otherwise exactly two. -/
def splitAfterN2 (s : String) : List String :=
  match splitAfter s.data with
  | none => [s]
  | some (pre, post) => [⟨pre⟩, ⟨post⟩]

/-- The label-table entries one line of the label file contributes, `x`
being the running line counter of the scan loop (`for x := 1; ...; x++`):
a one-field line maps `x` to the whole line; a two-field line whose
first field parses via `Atoi` (after `TrimSpace`) maps that index to the
trimmed second field; a two-field line with an unparsable index
contributes nothing. -/
def lineEntry (x : Nat) (line : String) : List (Int × String) :=
  match splitAfterN2 line with
  | [f0] => [((x : Int), f0)]
  | [f0, f1] =>
    match atoiQ (trimStr f0) with
    | some y => [(y, trimStr f1)]
    | none => []
  | _ => []

/-- The label-file scan loop: later lines override earlier ones on the
same key (Go map writes), so entries of later lines are placed in front
and `List.lookup` finds the newest binding. -/
def loadLabelsAux : Nat → List String → List (Int × String)
  | _, [] => []
  | x, line :: rest => loadLabelsAux (x + 1) rest ++ lineEntry x line

/-- The whole label load of `New`: the line counter starts at 1. -/
def loadLabels (lines : List String) : List (Int × String) :=
  loadLabelsAux 1 lines

/-- Concrete raw candidate whose raw `Top` is 1.02 (slightly above the
normalized bound), all other coordinates in range. -/
def cTopOvershoot : Candidate :=
  { top := 51/50, left := 0, bottom := 1, right := 1, classIdx := 1, score := 1 }

/-- Concrete raw candidate with `Top = -0.5` and `Bottom = 1.5`, both
overshooting on their clipped side. -/
def cBothOvershoot : Candidate :=
  { top := -1/2, left := 0, bottom := 3/2, right := 1, classIdx := 1, score := 1 }

/-- Error classification of the tflite `Detect` (`codes` of the gRPC
status it returns). -/
inductive ErrClass where
  | invalidArgument
  | internal
deriving DecidableEq

/-- Result value of the tflite `Detect`. -/
inductive DetectResult where
  | err (e : ErrClass)
  | ok (ds : List Detection)
deriving DecidableEq

/-- Observable outcome of one tflite `Detect` call that returns:
its result, the pool contents after the deferred release ran, whether
`conf.Stop.Stop()` was called (the process-wide shutdown trigger),
whether the input tensor was loaded, whether `Invoke` was started, and
whether the call waited on the `complete` channel before returning. -/
structure DetectOutcome where
  result : DetectResult
  pool : List Nat
  stopTriggered : Bool
  inputLoaded : Bool
  invoked : Bool
  waitedForComplete : Bool
deriving DecidableEq

/-- A `Detect` call either blocks forever (on the pool receive, or on
the `complete` channel of an `Invoke` that never finishes) or returns
an outcome. -/
inductive DetectRun where
  | blocked
  | returns (o : DetectOutcome)
deriving DecidableEq

/-- The tflite `Detect` pipeline.  `decoded` says whether the request
bytes were handled (PPM fast path, or `image.Decode` succeeded); on a
decode failure the call returns `InvalidArgument` before touching the
pool.  Otherwise a handle is received from the pool channel (blocking
when none is available) and the deferred `d.pool <- interpreter`
returns it on every subsequent path.  `Invoke` runs in a goroutine
closing `complete`; `invokeCompletes` says whether it ever finishes and
`timerFirst` is the oracle for the `select` race when both the timer
and `complete` are ready.  With `timeout > 0`, a timer win logs,
triggers `conf.Stop.Stop()` and returns an `Internal` error without
waiting on `complete`; otherwise (and always when `timeout = 0`) the
call waits on `complete` and then maps the raw batch. -/
def detect (labels : List (Int × String)) (timeout : Nat)
    (filterSpec : List (String × ℚ)) (batch : List Candidate)
    (decoded : Bool) (pool : List Nat)
    (invokeCompletes : Bool) (timerFirst : Bool) : DetectRun :=
  match decoded with
  | false =>
    .returns { result := .err .invalidArgument, pool := pool, stopTriggered := false,
               inputLoaded := false, invoked := false, waitedForComplete := false }
  | true =>
    match pool with
    | [] => .blocked
    | h :: rest =>
      let released := rest ++ [h]
      if 0 < timeout then
        match timerFirst || !invokeCompletes with
        | true =>
          .returns { result := .err .internal, pool := released, stopTriggered := true,
                     inputLoaded := true, invoked := true, waitedForComplete := false }
        | false =>
          .returns { result := .ok (mapDetections labels filterSpec batch), pool := released,
                     stopTriggered := false, inputLoaded := true, invoked := true,
                     waitedForComplete := true }
      else
        match invokeCompletes with
        | true =>
          .returns { result := .ok (mapDetections labels filterSpec batch), pool := released,
                     stopTriggered := false, inputLoaded := true, invoked := true,
                     waitedForComplete := true }
        | false => .blocked

/-- Observable outcome of one tensorflow-backend `Detect` call: the
`Error` field of the response (`none` on success), the detections, the
pool after the deferred release, and whether the model session's `Run`
(the inference) was executed. -/
structure TFOutcome where
  errorMsg : Option String
  detections : List DetectionTF
  pool : List Nat
  ran : Bool
deriving DecidableEq

/-- The tensorflow-backend `Detect` pipeline.  The session is received
from the pool first (`none` models blocking on an empty pool) and the
deferred `d.pool <- sess` returns it on every path.  The error ladder
follows the source order: `image.DecodeConfig`, the gocv conversion for
unsupported formats (`needsConvert` says the decoded type was none of
png/gif/jpg/bmp), input-tensor creation, the decode session, the decode
run, and finally the model session's `Run`. -/
def detectTF (labels : List (Int × String)) (filterSpec : List (String × ℚ))
    (batch : List Candidate) (hh ww : Int)
    (decodeConfigOk needsConvert convertOk encodeOk tensorOk imgSessionOk imgRunOk runOk : Bool)
    (pool : List Nat) : Option TFOutcome :=
  match pool with
  | [] => none
  | h :: rest =>
    let released := rest ++ [h]
    let fail := fun (msg : String) (ran : Bool) =>
      some { errorMsg := some msg, detections := [], pool := released, ran := ran }
    if decodeConfigOk = false then fail "Could not decode image" false
    else if needsConvert && !convertOk then fail "Could not decode image" false
    else if needsConvert && !encodeOk then fail "error encoding bmp" false
    else if tensorOk = false then fail "could not create input tensor" false
    else if imgSessionOk = false then fail "could not create image session" false
    else if imgRunOk = false then fail "error converting image" false
    else if runOk = false then fail "error running detection" true
    else some { errorMsg := none, detections := mapDetectionsTF labels filterSpec batch hh ww,
                pool := released, ran := true }

/-- Result of the pool-construction loop of `New`: every slot creates a
handle and then sends it on the pool channel.  `ok pooled` is a
completed loop; `failed created destroyed` is an interpreter-creation
error (the code does `return nil, err` at once, destroying nothing);
`blocked created` is a send on a full channel, which blocks `New`
forever since nothing concurrently receives. -/
inductive NewRun where
  | ok (pooled : Nat)
  | failed (created : Nat) (destroyed : Nat)
  | blocked (created : Nat)
deriving DecidableEq

/-- The `for x := 0; x < c.NumConcurrent; x++` pool-fill loop: `cap` is
the channel capacity, `pooled` the number of handles already sent, and
each entry of `createOk` says whether that slot's interpreter
construction succeeds. -/
def fillPool (cap : Nat) : Nat → List Bool → NewRun
  | pooled, [] => .ok pooled
  | pooled, created :: rest =>
    match created with
    | true => if pooled < cap then fillPool cap (pooled + 1) rest else .blocked (pooled + 1)
    | false => .failed pooled 0

/-- `30 * time.Second` in nanoseconds (`time.Duration` units). -/
def thirtySeconds : Nat := 30 * 1000000000

/-- Observable shape of a constructed tflite detector: the pool channel
capacity, the number of handles the construction loop attempts, the
device binding of each slot, the effective timeout, and the loop run. -/
structure NewResult where
  poolCapacity : Nat
  numHandles : Nat
  bindings : List (Option Nat)
  timeout : Nat
  run : NewRun
deriving DecidableEq

/-- Pool construction of the tflite `New`.  The pool channel is created
with the configured `c.NumConcurrent` in the struct literal, before
anything else.  With hardware acceleration, a missing device list is a
construction error, `c.NumConcurrent` is then overridden to the device
count (the channel capacity is not re-created), slot `x` binds device
`x`, and a zero timeout is forced to 30 seconds.  The loop then creates
and pools one handle per (possibly overridden) concurrency slot. -/
def newDetector (numConcurrent : Nat) (hwAccel : Bool) (devices : Nat)
    (timeout : Nat) (createOk : List Bool) : Option NewResult :=
  let cap := numConcurrent
  if hwAccel && devices == 0 then none
  else
    let n := if hwAccel then devices else numConcurrent
    let t := if hwAccel && timeout == 0 then thirtySeconds else timeout
    let binds := if hwAccel then (List.range n).map some
                 else (List.range n).map fun _ => none
    some { poolCapacity := cap, numHandles := n, bindings := binds, timeout := t,
           run := fillPool cap 0 (createOk.take n) }

/-- State of the pool channel: the handles available on the channel and
the handles currently held by in-flight `Detect` calls. -/
structure PoolSt where
  available : List Nat
  held : List Nat
deriving DecidableEq

/-- Events of the pool protocol as `Detect` uses it: `acquire` is
`interpreter := <-d.pool` (takes the handle at the head of the
channel), `release h` is the deferred `d.pool <- h` of the call holding
`h`. -/
inductive PoolEv where
  | acquire
  | release (h : Nat)
deriving DecidableEq

/-- One step of the pool protocol; `none` models a blocked event (an
acquire on an empty pool, or a release of a handle nobody holds, which
the `Detect` discipline never emits). -/
def poolStep (s : PoolSt) : PoolEv → Option PoolSt
  | .acquire =>
    match s.available with
    | [] => none
    | h :: rest => some { available := rest, held := h :: s.held }
  | .release h =>
    if h ∈ s.held then some { available := s.available ++ [h], held := s.held.erase h }
    else none

/-- Run a sequence of interleaved pool events of concurrent `Detect`
calls. -/
def runPool (s : PoolSt) : List PoolEv → Option PoolSt
  | [] => some s
  | e :: evs =>
    match poolStep s e with
    | none => none
    | some s2 => runPool s2 evs

/-- A lower clip `if q < 0 then 0 else q` is non-negative. -/
theorem clip_low_nonneg {α : Type} [LinearOrderedRing α] (q : α) :
    0 ≤ if q < 0 then 0 else q := by
  by_cases h : q < 0
  · simp [h]
  · simp [h]; exact le_of_not_lt h

/-- An upper clip `if b < q then b else q` is at most `b`. -/
theorem clip_high_le {α : Type} [LinearOrderedRing α] (b q : α) :
    (if b < q then b else q) ≤ b := by
  by_cases h : b < q
  · simp [h]
  · simp [h]; exact le_of_not_lt h

/-- Membership inversion for the tflite mapping loop. -/
theorem mem_mapDetections {labels : List (Int × String)} {fs : List (String × ℚ)}
    {batch : List Candidate} {d : Detection} (hd : d ∈ mapDetections labels fs batch) :
    ∃ c, c ∈ batch ∧ d = mkDetection (lookupLabel labels c.classIdx) c := by
  simp only [mapDetections, List.mem_filterMap] at hd
  obtain ⟨c, hc, hsome⟩ := hd
  refine ⟨c, hc, ?_⟩
  by_cases hacc : accepted fs (lookupLabel labels c.classIdx) c.score = true
  · simp only [hacc, if_true] at hsome
    exact (Option.some_inj.mp hsome).symm
  · simp only [hacc, if_false] at hsome
    cases hsome

/-- Membership inversion for the tensorflow mapping loop. -/
theorem mem_mapDetectionsTF {labels : List (Int × String)} {fs : List (String × ℚ)}
    {batch : List Candidate} {hh ww : Int} {d : DetectionTF}
    (hd : d ∈ mapDetectionsTF labels fs batch hh ww) :
    ∃ c, c ∈ batch ∧ d = mkDetectionTF (lookupLabel labels c.classIdx) c hh ww := by
  simp only [mapDetectionsTF, List.mem_filterMap] at hd
  obtain ⟨c, hc, hsome⟩ := hd
  refine ⟨c, hc, ?_⟩
  by_cases hacc : accepted fs (lookupLabel labels c.classIdx) c.score = true
  · simp only [hacc, if_true] at hsome
    exact (Option.some_inj.mp hsome).symm
  · simp only [hacc, if_false] at hsome
    cases hsome

/-- An empty filter spec accepts every candidate. -/
theorem accepted_empty (label : String) (score : ℚ) : accepted [] label score = true := rfl

/-- With an empty filter spec the tflite mapping loop is a plain map. -/
theorem mapDetections_empty (labels : List (Int × String)) (batch : List Candidate) :
    mapDetections labels [] batch =
      batch.map fun c => mkDetection (lookupLabel labels c.classIdx) c := by
  induction batch with
  | nil => rfl
  | cons c cs ih =>
    simp only [mapDetections, List.filterMap_cons, accepted_empty, if_true, List.map_cons]
    exact congrArg _ ih

/-- With an empty filter spec the tensorflow mapping loop is a plain map. -/
theorem mapDetectionsTF_empty (labels : List (Int × String)) (batch : List Candidate)
    (hh ww : Int) :
    mapDetectionsTF labels [] batch hh ww =
      batch.map fun c => mkDetectionTF (lookupLabel labels c.classIdx) c hh ww := by
  induction batch with
  | nil => rfl
  | cons c cs ih =>
    simp only [mapDetectionsTF, List.filterMap_cons, accepted_empty, if_true, List.map_cons]
    exact congrArg _ ih

/-- One pool step preserves the multiset of handles in circulation. -/
theorem poolStep_perm {s s2 : PoolSt} {e : PoolEv} (hstep : poolStep s e = some s2) :
    (s2.available ++ s2.held).Perm (s.available ++ s.held) := by
  cases e with
  | acquire =>
    cases hav : s.available with
    | nil => simp [poolStep, hav] at hstep
    | cons h rest =>
      simp only [poolStep, hav, Option.some_inj] at hstep
      subst hstep
      exact List.perm_middle
  | release h =>
    by_cases hmem : h ∈ s.held
    · simp only [poolStep, hmem, if_true, Option.some_inj] at hstep
      subst hstep
      show ((s.available ++ [h]) ++ s.held.erase h).Perm (s.available ++ s.held)
      rw [List.append_assoc, List.singleton_append]
      exact List.Perm.append_left s.available (List.perm_cons_erase hmem).symm
    · simp [poolStep, hmem] at hstep

/-- A completed run of pool events preserves the multiset of handles. -/
theorem runPool_perm :
    ∀ (evs : List PoolEv) (s s2 : PoolSt), runPool s evs = some s2 →
      (s2.available ++ s2.held).Perm (s.available ++ s.held) := by
  intro evs
  induction evs with
  | nil =>
    intro s s2 hrun
    simp only [runPool, Option.some_inj] at hrun
    subst hrun
    exact List.Perm.refl _
  | cons e rest ih =>
    intro s s2 hrun
    simp only [runPool] at hrun
    cases hstep : poolStep s e with
    | none => rw [hstep] at hrun; cases hrun
    | some s1 =>
      rw [hstep] at hrun
      exact (ih s1 s2 hrun).trans (poolStep_perm hstep)

/-- C1: the filter decision consults the exact-label entry first (with
inclusive boundary `score*100 >= threshold`), then the wildcard entry,
rejects when the spec is non-empty but has no applicable entry, and
accepts unconditionally when the spec is empty. -/
theorem C1_filter_decision (filterSpec : List (String × ℚ)) (label : String) (score : ℚ) :
    (∀ t, filterSpec.lookup label = some t →
      (accepted filterSpec label score = true ↔ t ≤ score * 100))
    ∧ (filterSpec.lookup label = none →
        ∀ t, filterSpec.lookup "*" = some t →
          (accepted filterSpec label score = true ↔ t ≤ score * 100))
    ∧ (filterSpec.lookup label = none → filterSpec.lookup "*" = none →
        filterSpec ≠ [] → accepted filterSpec label score = false)
    ∧ (filterSpec = [] → accepted filterSpec label score = true) := by
  refine ⟨?_, ?_, ?_, ?_⟩
  · intro t ht
    simp [accepted, ht, not_lt]
  · intro hn t hw
    simp [accepted, hn, hw, not_lt]
  · intro hn hw hne
    cases hfs : filterSpec with
    | nil => exact absurd hfs hne
    | cons p ps =>
      rw [hfs] at hn hw
      simp [accepted, hn, hw]
  · intro h
    subst h
    rfl

/-- C1 witness: with spec `{"dog": 50}` a "dog" candidate is accepted
iff its score times 100 reaches 50; a "cat" candidate is rejected; and
an empty spec accepts. -/
theorem C1_filter_decision_witness :
    (accepted [("dog", 50)] "dog" (1/2) = true ↔ (50 : ℚ) ≤ (1/2) * 100)
    ∧ accepted [("dog", 50)] "cat" (9/10) = false
    ∧ accepted [] "cat" (1/10) = true :=
  ⟨(C1_filter_decision [("dog", 50)] "dog" (1/2)).1 50 rfl,
   (C1_filter_decision [("dog", 50)] "cat" (9/10)).2.2.1 rfl rfl (by simp),
   (C1_filter_decision [] "cat" (1/10)).2.2.2 rfl⟩

/-- C2 counterexample: a raw candidate with `Top = 1.02` (all other
coordinates in range) passes the filter with an empty spec, and the
output box keeps `Top = 1.02`, which is not in `[0,1]`: the code clips
`Top`/`Left` only from below and `Bottom`/`Right` only from above. -/
theorem C2_clipping_counterexample :
    (mapDetections [] [] [cTopOvershoot]).map Detection.top = [51/50]
    ∧ ¬ ((51 : ℚ)/50 ≤ 1) := by
  constructor
  · simp [mapDetections, mkDetection, accepted, lookupLabel, List.lookup, cTopOvershoot]
    norm_num
  · norm_num

/-- C2 amended: every output box of the tflite backend has
`Top ≥ 0`, `Left ≥ 0`, `Bottom ≤ 1` and `Right ≤ 1`, and every output
box of the tensorflow backend has `Y1 ≥ 0`, `X1 ≥ 0`, `Y2 ≤ imageHeight`
and `X2 ≤ imageWidth`; the converse sides (`Top`/`Left`/`Y1`/`X1` above
the upper bound, `Bottom`/`Right`/`Y2`/`X2` below zero) are not
clipped. -/
theorem C2_boxes_clipped_amended :
    (∀ labels fs batch (d : Detection), d ∈ mapDetections labels fs batch →
      0 ≤ d.top ∧ 0 ≤ d.left ∧ d.bottom ≤ 1 ∧ d.right ≤ 1)
    ∧ (∀ labels fs batch hh ww (d : DetectionTF), d ∈ mapDetectionsTF labels fs batch hh ww →
      0 ≤ d.y1 ∧ 0 ≤ d.x1 ∧ d.y2 ≤ hh ∧ d.x2 ≤ ww) := by
  constructor
  · intro labels fs batch d hd
    obtain ⟨c, _, hdc⟩ := mem_mapDetections hd
    subst hdc
    exact ⟨clip_low_nonneg _, clip_low_nonneg _, clip_high_le _ _, clip_high_le _ _⟩
  · intro labels fs batch hh ww d hd
    obtain ⟨c, _, hdc⟩ := mem_mapDetectionsTF hd
    subst hdc
    exact ⟨clip_low_nonneg _, clip_low_nonneg _, clip_high_le _ _, clip_high_le _ _⟩

/-- C2 witness: the amended theorem applied to the single output of a
concrete batch whose raw box is `(-1/2, 0, 3/2, 1)`. -/
theorem C2_boxes_clipped_amended_witness :
    0 ≤ (mkDetection "" cBothOvershoot).top
    ∧ 0 ≤ (mkDetection "" cBothOvershoot).left
    ∧ (mkDetection "" cBothOvershoot).bottom ≤ 1
    ∧ (mkDetection "" cBothOvershoot).right ≤ 1 :=
  C2_boxes_clipped_amended.1 [] [] [cBothOvershoot] (mkDetection "" cBothOvershoot)
    (List.Mem.head _)

/-- C3: whenever a `Detect` call acquires a handle and returns, the
returned pool holds exactly the handles it held before the call (the
acquired handle was re-sent exactly once, by the deferred release), on
every exit path of both backends; and any completed interleaving of
concurrent acquire/release event sequences restores the pool to a
permutation of its original contents. -/
theorem C3_release_exactly_once :
    (∀ labels timeout fs batch h rest invC tFirst o,
        detect labels timeout fs batch true (h :: rest) invC tFirst = .returns o →
        o.pool = rest ++ [h] ∧ o.pool.Perm (h :: rest))
    ∧ (∀ labels fs batch hh ww b1 b2 b3 b4 b5 b6 b7 b8 h rest o,
        detectTF labels fs batch hh ww b1 b2 b3 b4 b5 b6 b7 b8 (h :: rest) = some o →
        o.pool = rest ++ [h] ∧ o.pool.Perm (h :: rest))
    ∧ (∀ (init : List Nat) (evs : List PoolEv) (s2 : PoolSt),
        runPool { available := init, held := [] } evs = some s2 →
        s2.held = [] → s2.available.Perm init) := by
  refine ⟨?_, ?_, ?_⟩
  · intro labels timeout fs batch h rest invC tFirst o heq
    have hpool : o.pool = rest ++ [h] := by
      by_cases ht : 0 < timeout
      · simp only [detect, if_pos ht] at heq
        cases hb : (tFirst || !invC) <;> rw [hb] at heq <;>
          rw [← DetectRun.returns.inj heq]
      · simp only [detect, if_neg ht] at heq
        cases invC with
        | false => cases heq
        | true => rw [← DetectRun.returns.inj heq]
    exact ⟨hpool, hpool ▸ List.perm_append_singleton h rest⟩
  · intro labels fs batch hh ww b1 b2 b3 b4 b5 b6 b7 b8 h rest o heq
    have hpool : o.pool = rest ++ [h] := by
      simp only [detectTF] at heq
      repeat' split at heq
      all_goals rw [← Option.some_inj.mp heq]
    exact ⟨hpool, hpool ▸ List.perm_append_singleton h rest⟩
  · intro init evs s2 hrun hheld
    have h1 := runPool_perm evs { available := init, held := [] } s2 hrun
    rw [hheld, List.append_nil] at h1
    simpa using h1

/-- C3 witness: a single-handle pool with a completing invoke releases
handle 7 exactly once, and a concrete interleaving of four concurrent
calls over a three-handle pool restores the pool. -/
theorem C3_release_exactly_once_witness :
    (({ result := .ok (mapDetections [] [] []), pool := [7], stopTriggered := false,
        inputLoaded := true, invoked := true,
        waitedForComplete := true } : DetectOutcome).pool = [] ++ [7]
      ∧ (({ result := .ok (mapDetections [] [] []), pool := [7], stopTriggered := false,
            inputLoaded := true, invoked := true,
            waitedForComplete := true } : DetectOutcome).pool).Perm [7])
    ∧ List.Perm [0, 1, 2] [0, 1, 2] :=
  ⟨C3_release_exactly_once.1 [] 0 [] [] 7 [] true false
      { result := .ok (mapDetections [] [] []), pool := [7], stopTriggered := false,
        inputLoaded := true, invoked := true, waitedForComplete := true } rfl,
   C3_release_exactly_once.2.2 [0, 1, 2]
      [.acquire, .acquire, .release 0, .acquire, .release 1, .release 2]
      { available := [0, 1, 2], held := [] } rfl rfl⟩

/-- C4: with a configured timeout, a timer win returns an
`Internal`-classified error, triggers `conf.Stop.Stop()` and abandons
the invoke goroutine (no wait on `complete`); with no timeout, `Detect`
blocks forever when `Invoke` never completes and returns the mapped
results when it does. -/
theorem C4_timeout_behavior :
    (∀ labels timeout fs batch h rest invC tFirst,
        0 < timeout → (tFirst = true ∨ invC = false) →
        detect labels timeout fs batch true (h :: rest) invC tFirst =
          .returns { result := .err .internal, pool := rest ++ [h], stopTriggered := true,
                     inputLoaded := true, invoked := true, waitedForComplete := false })
    ∧ (∀ labels fs batch h rest tFirst,
        detect labels 0 fs batch true (h :: rest) false tFirst = .blocked)
    ∧ (∀ labels fs batch h rest tFirst,
        detect labels 0 fs batch true (h :: rest) true tFirst =
          .returns { result := .ok (mapDetections labels fs batch), pool := rest ++ [h],
                     stopTriggered := false, inputLoaded := true, invoked := true,
                     waitedForComplete := true }) := by
  refine ⟨?_, fun _ _ _ _ _ _ => rfl, fun _ _ _ _ _ _ => rfl⟩
  intro labels timeout fs batch h rest invC tFirst ht hrace
  have hb : (tFirst || !invC) = true := by
    rcases hrace with h1 | h2
    · simp [h1]
    · simp [h2]
  simp only [detect, if_pos ht, hb]

/-- C4 witness: timeout 1, invoke never completes: `Detect` returns the
`Internal` error with the shutdown trigger set. -/
theorem C4_timeout_behavior_witness :
    detect [] 1 [] [] true [5] false false =
      .returns { result := .err .internal, pool := [] ++ [5], stopTriggered := true,
                 inputLoaded := true, invoked := true, waitedForComplete := false } :=
  C4_timeout_behavior.1 [] 1 [] [] 5 [] false false (by decide) (Or.inr rfl)

/-- C5: the label scan maps the concrete lines `"1 cat"`, `"dog"`,
`"x stale"` to exactly `{1: "cat", 2: "dog"}`; in general each line
advances the counter, a one-field line maps the counter to the line, a
two-field line with a parsable index maps the trimmed index to the
trimmed label, and one with an unparsable index is skipped silently. -/
theorem C5_label_loading :
    loadLabels ["1 cat", "dog", "x stale"] = [(2, "dog"), (1, "cat")]
    ∧ (∀ x line rest, loadLabelsAux x (line :: rest) =
        loadLabelsAux (x + 1) rest ++ lineEntry x line)
    ∧ (∀ x line f0, splitAfterN2 line = [f0] → lineEntry x line = [((x : Int), f0)])
    ∧ (∀ x line f0 f1 y, splitAfterN2 line = [f0, f1] → atoiQ (trimStr f0) = some y →
        lineEntry x line = [(y, trimStr f1)])
    ∧ (∀ x line f0 f1, splitAfterN2 line = [f0, f1] → atoiQ (trimStr f0) = none →
        lineEntry x line = []) := by
  refine ⟨by decide, fun x line rest => rfl, ?_, ?_, ?_⟩
  · intro x line f0 hs
    simp [lineEntry, hs]
  · intro x line f0 f1 y hs ha
    simp [lineEntry, hs, ha]
  · intro x line f0 f1 hs ha
    simp [lineEntry, hs, ha]

/-- C5 witness: the general clauses applied to the three example
lines at their line numbers. -/
theorem C5_label_loading_witness :
    lineEntry 1 "1 cat" = [(1, trimStr "cat")]
    ∧ lineEntry 2 "dog" = [((2 : Int), "dog")]
    ∧ lineEntry 3 "x stale" = [] :=
  ⟨C5_label_loading.2.2.2.1 1 "1 cat" "1 " "cat" 1 rfl rfl,
   C5_label_loading.2.2.1 2 "dog" "dog" rfl,
   C5_label_loading.2.2.2.2 3 "x stale" "x " "stale" rfl rfl⟩

/-- C6: the failing input of the pool-sizing bug.  With configured
concurrency 1, hardware acceleration on and 2 detected devices, the
pool channel keeps capacity 1 (it was created before the device-count
override), yet the construction loop creates 2 handles (bound to
devices 0 and 1) — the second send blocks `New` forever, so the handles
do not all fit in the pool. -/
theorem C6_pool_capacity_bug :
    newDetector 1 true 2 0 [true, true] =
      some { poolCapacity := 1, numHandles := 2, bindings := [some 0, some 1],
             timeout := thirtySeconds, run := .blocked 2 } := by
  decide

/-- C7: an undecodable image makes the tflite `Detect` return an
`InvalidArgument` error with the pool untouched, no input loaded and no
invocation run; the tensorflow `Detect` returns a decode-error response
without running inference, with the pool contents unchanged after the
deferred release. -/
theorem C7_undecodable_image :
    (∀ labels timeout fs batch pool invC tFirst,
        detect labels timeout fs batch false pool invC tFirst =
          .returns { result := .err .invalidArgument, pool := pool, stopTriggered := false,
                     inputLoaded := false, invoked := false, waitedForComplete := false })
    ∧ (∀ labels fs batch hh ww b2 b3 b4 b5 b6 b7 b8 h rest,
        detectTF labels fs batch hh ww false b2 b3 b4 b5 b6 b7 b8 (h :: rest) =
          some { errorMsg := some "Could not decode image", detections := [],
                 pool := rest ++ [h], ran := false }
        ∧ (rest ++ [h]).Perm (h :: rest)) :=
  ⟨fun _ _ _ _ _ _ _ => rfl,
   fun _ _ _ _ _ _ _ _ _ _ _ _ h rest => ⟨rfl, List.perm_append_singleton h rest⟩⟩

/-- C8: with an empty filter spec, both mapping loops emit exactly one
detection per raw candidate, in batch order, with confidence equal to
the raw score times 100. -/
theorem C8_empty_filter (labels : List (Int × String)) (batch : List Candidate)
    (hh ww : Int) :
    mapDetections labels [] batch =
      batch.map (fun c => mkDetection (lookupLabel labels c.classIdx) c)
    ∧ (mapDetections labels [] batch).length = batch.length
    ∧ (mapDetections labels [] batch).map Detection.confidence =
        batch.map (fun c => c.score * 100)
    ∧ mapDetectionsTF labels [] batch hh ww =
        batch.map (fun c => mkDetectionTF (lookupLabel labels c.classIdx) c hh ww)
    ∧ (mapDetectionsTF labels [] batch hh ww).map DetectionTF.confidence =
        batch.map (fun c => c.score * 100) := by
  refine ⟨mapDetections_empty labels batch, ?_, ?_,
    mapDetectionsTF_empty labels batch hh ww, ?_⟩
  · rw [mapDetections_empty labels batch, List.length_map]
  · rw [mapDetections_empty labels batch, List.map_map]
    rfl
  · rw [mapDetectionsTF_empty labels batch hh ww, List.map_map]
    rfl

/-- C9 counterexample: capacity 2, the first interpreter construction
succeeds, the second fails: `New` returns the error having created one
handle and destroyed zero, so the already-created handle is not
released before `New` returns. -/
theorem C9_cleanup_counterexample :
    (newDetector 2 false 0 5 [true, false]).map NewResult.run = some (.failed 1 0)
    ∧ (1 : Nat) ≠ 0 := by
  decide

/-- Whenever the pool-fill loop ends in a construction failure, the
number of handles destroyed before returning is zero. -/
theorem fillPool_failed_destroyed (cap : Nat) :
    ∀ (createOk : List Bool) (pooled c dstr : Nat),
      fillPool cap pooled createOk = .failed c dstr → dstr = 0 := by
  intro createOk
  induction createOk with
  | nil =>
    intro pooled c dstr h
    simp [fillPool] at h
  | cons b rest ih =>
    intro pooled c dstr h
    cases b with
    | true =>
      by_cases hlt : pooled < cap
      · simp only [fillPool, if_pos hlt] at h
        exact ih (pooled + 1) c dstr h
      · simp only [fillPool, if_neg hlt] at h
        cases h
    | false =>
      simp only [fillPool] at h
      cases h
      rfl

/-- C9 amended: if an interpreter construction fails, `New` returns its
error at once (the remaining slots are not processed) and destroys none
of the already-created handles, which stay in the pool channel. -/
theorem C9_failed_init_amended :
    (∀ cap pooled rest, fillPool cap pooled (false :: rest) = .failed pooled 0)
    ∧ (∀ nc hw dev t createOk res c dstr,
        newDetector nc hw dev t createOk = some res →
        res.run = .failed c dstr → dstr = 0) := by
  refine ⟨fun cap pooled rest => rfl, ?_⟩
  intro nc hw dev t createOk res c dstr hnew hrun
  simp only [newDetector] at hnew
  split at hnew
  · cases hnew
  · rw [Option.some_inj] at hnew
    subst hnew
    exact fillPool_failed_destroyed nc _ 0 c dstr hrun

/-- C9 witness: the amended theorem applied to the concrete failing
construction of the counterexample. -/
theorem C9_failed_init_amended_witness : (0 : Nat) = 0 :=
  C9_failed_init_amended.2 2 false 0 5 [true, false]
    { poolCapacity := 2, numHandles := 2, bindings := [none, none], timeout := 5,
      run := .failed 1 0 } 1 0 (by decide) rfl

/-- C10: under hardware acceleration the effective timeout is always
positive (a configured zero is forced to 30 seconds), so `Detect` races
`Invoke` against the timer and returns the `Internal` error instead of
blocking forever when the worker is wedged. -/
theorem C10_hwaccel_timeout :
    (∀ nc dev t createOk res, newDetector nc true dev t createOk = some res →
        0 < res.timeout)
    ∧ (∀ nc dev createOk res, newDetector nc true dev 0 createOk = some res →
        res.timeout = thirtySeconds)
    ∧ (∀ labels T fs batch h rest tFirst, 0 < T →
        detect labels T fs batch true (h :: rest) false tFirst =
          .returns { result := .err .internal, pool := rest ++ [h], stopTriggered := true,
                     inputLoaded := true, invoked := true, waitedForComplete := false }) := by
  refine ⟨?_, ?_, ?_⟩
  · intro nc dev t createOk res hnew
    simp only [newDetector] at hnew
    split at hnew
    · cases hnew
    · rw [Option.some_inj] at hnew
      subst hnew
      by_cases ht : t = 0
      · simp only [ht]
        decide
      · simp only [Bool.true_and, beq_iff_eq, ht, if_false]
        exact Nat.pos_of_ne_zero ht
  · intro nc dev createOk res hnew
    simp only [newDetector] at hnew
    split at hnew
    · cases hnew
    · rw [Option.some_inj] at hnew
      subst hnew
      rfl
  · intro labels T fs batch h rest tFirst hT
    simp only [detect, if_pos hT, Bool.not_false, Bool.or_true]

/-- C10 witness: one device, configured timeout zero: the effective
timeout is 30 seconds, and with timeout 1 a wedged invoke still
returns. -/
theorem C10_hwaccel_timeout_witness :
    ({ poolCapacity := 1, numHandles := 1, bindings := [some 0],
       timeout := thirtySeconds, run := .ok 1 } : NewResult).timeout = thirtySeconds
    ∧ detect [] 1 [] [] true [9] false true =
        .returns { result := .err .internal, pool := [] ++ [9], stopTriggered := true,
                   inputLoaded := true, invoked := true, waitedForComplete := false } :=
  ⟨C10_hwaccel_timeout.2.1 1 1 [true]
      { poolCapacity := 1, numHandles := 1, bindings := [some 0],
        timeout := thirtySeconds, run := .ok 1 } (by decide),
   C10_hwaccel_timeout.2.2 [] 1 [] [] 9 [] true (by decide)⟩

end Doods
